import Mathlib

/-!
Shallow embedding of the GEO analyzer pipeline (geo_engine.py and the batch
collection loop of app.py), together with proofs about its mention detector,
analysis task, scenario generator and scheduler.

Strings are modelled as `List Char`.  LLM calls are modelled as oracle
functions returning `Except`, where `Except.error` stands for a raised
exception (transport failure, malformed JSON, and so on).  Parsed JSON values
are modelled by the inductive type `Json`, and Python dictionaries by ordered
association lists.
-/

namespace Geo

/-- Characters kept by the regular expression `[^a-zA-Z0-9가-힣]` substitution
in `check_visibility_logic`: ASCII letters, ASCII digits, and Korean
syllable-block characters (U+AC00 through U+D7A3). -/
def isKeptChar (c : Char) : Bool :=
  decide ((65 ≤ c.toNat ∧ c.toNat ≤ 90) ∨ (97 ≤ c.toNat ∧ c.toNat ≤ 122) ∨
    (48 ≤ c.toNat ∧ c.toNat ≤ 57) ∨ (0xAC00 ≤ c.toNat ∧ c.toNat ≤ 0xD7A3))

/-- The `normalize` helper inside `check_visibility_logic`:
`re.sub(r'[^a-zA-Z0-9가-힣]', '', s).lower()`.  The substitution is a filter;
`str.lower` on the remaining alphabet maps `A`-`Z` to `a`-`z` and is the
identity elsewhere, which is exactly `Char.toLower`. -/
def normalize (s : List Char) : List Char :=
  (s.filter isKeptChar).map Char.toLower

/-- `startsWithL hay needle` holds when `needle` is a prefix of `hay`
(character-by-character comparison, as Python substring search performs at
each offset). -/
def startsWithL : List Char → List Char → Bool
  | _, [] => true
  | [], _ :: _ => false
  | a :: as, b :: bs => a == b && startsWithL as bs

/-- The Python substring operator `needle in hay` on strings: true when
`needle` occurs contiguously in `hay` (the empty needle occurs in every
string). -/
def pyStrIn (needle : List Char) : List Char → Bool
  | [] => startsWithL [] needle
  | hay@(_ :: t) => startsWithL hay needle || pyStrIn needle t

/-- `GEOAnalyzer.check_visibility_logic`: returns false when either input is
empty, otherwise normalizes both and tests substring containment of the
normalized brand in the normalized text. -/
def check_visibility_logic (text brand_name : List Char) : Bool :=
  if text.isEmpty || brand_name.isEmpty then false
  else pyStrIn (normalize brand_name) (normalize text)

theorem toNat_ofNat_valid (n : Nat) (h : n.isValidChar) : (Char.ofNat n).toNat = n := by
  simp [Char.ofNat, h, Char.ofNatAux, Char.toNat, UInt32.toNat]

theorem toLower_eq_of_upper (c : Char) (h1 : 65 ≤ c.toNat) (h2 : c.toNat ≤ 90) :
    Char.toLower c = Char.ofNat (c.toNat + 32) := by
  simp [Char.toLower, h1, h2]

theorem toLower_eq_self (c : Char) (h : ¬ (65 ≤ c.toNat ∧ c.toNat ≤ 90)) :
    Char.toLower c = c := by
  simp only [Char.toLower]
  split
  · rename_i h2
    exact absurd h2 h
  · rfl

theorem toLower_idem (c : Char) : Char.toLower (Char.toLower c) = Char.toLower c := by
  by_cases h : 65 ≤ c.toNat ∧ c.toNat ≤ 90
  · rw [toLower_eq_of_upper c h.1 h.2]
    have hv : (c.toNat + 32).isValidChar := Or.inl (by omega)
    have ht : (Char.ofNat (c.toNat + 32)).toNat = c.toNat + 32 := toNat_ofNat_valid _ hv
    apply toLower_eq_self
    rw [ht]
    omega
  · rw [toLower_eq_self c h, toLower_eq_self c h]

theorem isKeptChar_toLower (c : Char) (h : isKeptChar c = true) :
    isKeptChar (Char.toLower c) = true := by
  simp only [isKeptChar, decide_eq_true_eq] at h ⊢
  by_cases hu : 65 ≤ c.toNat ∧ c.toNat ≤ 90
  · rw [toLower_eq_of_upper c hu.1 hu.2]
    have hv : (c.toNat + 32).isValidChar := Or.inl (by omega)
    rw [toNat_ofNat_valid _ hv]
    omega
  · rw [toLower_eq_self c hu]
    exact h

theorem startsWithL_iff (hay needle : List Char) :
    startsWithL hay needle = true ↔ ∃ rest, hay = needle ++ rest := by
  induction needle generalizing hay with
  | nil => simp [startsWithL]
  | cons b bs ih =>
    cases hay with
    | nil =>
      simp only [startsWithL, List.cons_append]
      constructor
      · intro h
        exact absurd h (by simp)
      · rintro ⟨rest, h⟩
        exact absurd h (by simp)
    | cons a as =>
      simp only [startsWithL, Bool.and_eq_true, beq_iff_eq, ih, List.cons_append,
        List.cons.injEq]
      constructor
      · rintro ⟨rfl, rest, rfl⟩
        exact ⟨rest, rfl, rfl⟩
      · rintro ⟨rest, rfl, rfl⟩
        exact ⟨rfl, rest, rfl⟩

theorem pyStrIn_iff (needle hay : List Char) :
    pyStrIn needle hay = true ↔ ∃ p q, hay = p ++ needle ++ q := by
  induction hay with
  | nil =>
    simp only [pyStrIn, startsWithL_iff]
    constructor
    · rintro ⟨rest, h⟩
      exact ⟨[], rest, by simpa using h⟩
    · rintro ⟨p, q, h⟩
      have h2 : p = [] ∧ needle = [] ∧ q = [] := by
        simpa [List.append_eq_nil] using h.symm
      rcases h2 with ⟨rfl, h3, rfl⟩
      subst h3
      exact ⟨[], by simp⟩
  | cons a as ih =>
    simp only [pyStrIn, Bool.or_eq_true, startsWithL_iff, ih]
    constructor
    · rintro (⟨rest, h⟩ | ⟨p, q, h⟩)
      · exact ⟨[], rest, by simpa using h⟩
      · exact ⟨a :: p, q, by simp [h]⟩
    · rintro ⟨p, q, h⟩
      cases p with
      | nil =>
        exact Or.inl ⟨q, by simpa using h⟩
      | cons x xs =>
        right
        refine ⟨xs, q, ?_⟩
        have h3 : a :: as = x :: (xs ++ (needle ++ q)) := by
          simpa [List.append_assoc] using h
        simpa [List.append_assoc] using (List.cons.inj h3).2

/-- C2: for every non-empty text T and non-empty brand B,
`check_visibility_logic T B` returns true if and only if the normalization of
B is a contiguous substring of the normalization of T, where normalization
keeps only ASCII letters, ASCII digits and Korean syllable-block characters
and lower-cases the remainder, applied identically to both inputs. -/
theorem check_visibility_logic_iff (t b : List Char) (ht : t ≠ []) (hb : b ≠ []) :
    check_visibility_logic t b = true ↔ ∃ p q, normalize t = p ++ normalize b ++ q := by
  have hc : (t.isEmpty || b.isEmpty) = false := by
    simp [List.isEmpty_iff, ht, hb]
  simp only [check_visibility_logic, hc, Bool.false_eq_true, if_false]
  exact pyStrIn_iff (normalize b) (normalize t)

theorem check_visibility_logic_iff_witness :
    ((("ab".data : List Char) ≠ [] ∧ ("a".data : List Char) ≠ []) ∧
      (check_visibility_logic "ab".data "a".data = true ↔
        ∃ p q, normalize "ab".data = p ++ normalize "a".data ++ q)) :=
  ⟨⟨by decide, by decide⟩, check_visibility_logic_iff "ab".data "a".data (by decide) (by decide)⟩

/-- C7: the detector returns false whenever the text is empty and whenever the
brand name is empty — no false positives on missing data. -/
theorem check_visibility_logic_empty_guard (t b : List Char) :
    check_visibility_logic [] b = false ∧ check_visibility_logic t [] = false := by
  constructor
  · rfl
  · simp [check_visibility_logic]

/-- C8: the normalization used by the mention detector is idempotent:
normalizing an already normalized text changes nothing. -/
theorem normalize_idem (s : List Char) : normalize (normalize s) = normalize s := by
  unfold normalize
  have hkept : ∀ c ∈ (s.filter isKeptChar).map Char.toLower, isKeptChar c = true := by
    intro c hc
    rcases List.mem_map.mp hc with ⟨d, hd, rfl⟩
    exact isKeptChar_toLower d (List.mem_filter.mp hd).2
  rw [List.filter_eq_self.mpr hkept, List.map_map]
  exact List.map_congr_left fun a _ => toLower_idem a

/-- C9: a brand that is non-empty but normalizes to the empty string (it has
no ASCII letter, digit or Korean syllable character) is detected in every
non-empty text, because the empty normalized brand is a substring of every
normalized text. -/
theorem check_visibility_logic_trivial_brand (t b : List Char) (ht : t ≠ []) (hb : b ≠ [])
    (hnb : normalize b = []) : check_visibility_logic t b = true := by
  have hc : (t.isEmpty || b.isEmpty) = false := by
    simp [List.isEmpty_iff, ht, hb]
  simp only [check_visibility_logic, hc, Bool.false_eq_true, if_false, hnb]
  exact (pyStrIn_iff [] (normalize t)).mpr ⟨[], normalize t, by simp⟩

theorem check_visibility_logic_trivial_brand_witness :
    ((("abc".data : List Char) ≠ [] ∧ ("!!!".data : List Char) ≠ [] ∧
        normalize "!!!".data = []) ∧
      check_visibility_logic "abc".data "!!!".data = true) :=
  ⟨⟨by decide, by decide, by decide⟩,
    check_visibility_logic_trivial_brand "abc".data "!!!".data (by decide) (by decide) (by decide)⟩

/-- Parsed JSON values, as produced by `json.loads`. -/
inductive Json where
  | null : Json
  | bool : Bool → Json
  | num : Int → Json
  | str : List Char → Json
  | arr : List Json → Json
  | obj : List (List Char × Json) → Json

/-- First-match lookup in an ordered association list, modelling read access
to a Python dict. -/
def dictLookup : List (List Char × Json) → List Char → Option Json
  | [], _ => none
  | (k, v) :: rest, key => if k = key then some v else dictLookup rest key

/-- Python dict item assignment `d[key] = v`: replaces the value at an
existing key in place, otherwise appends the new entry at the end. -/
def dictSet (d : List (List Char × Json)) (key : List Char) (v : Json) :
    List (List Char × Json) :=
  if d.any (fun p => decide (p.1 = key)) then
    d.map (fun p => if p.1 = key then (key, v) else p)
  else d ++ [(key, v)]

/-- The two analysis engines iterated over by the batch loop in app.py. -/
inductive ModelType where
  | GPT : ModelType
  | Gemini : ModelType
deriving DecidableEq

/-- The success dictionary returned by `analyze_task`:
`{"q_idx": .., "model_type": .., "raw": .., "analysis": ..}`. -/
structure TaskSuccess where
  q_idx : Nat
  model_type : ModelType
  raw : List Char
  analysis : List (List Char × Json)

/-- The failure dictionary returned by the `except` clause of `analyze_task`:
`{"q_idx": .., "model_type": .., "error": str(e)}`. -/
structure TaskError where
  q_idx : Nat
  model_type : ModelType
  error : List Char

/-- A produced analysis result: exactly one of the two dictionary shapes. -/
inductive TaskResult where
  | success : TaskSuccess → TaskResult
  | error : TaskError → TaskResult

/-- The state of a constructed `GEOAnalyzer`: the only field the analysis path
branches on is the Gemini availability flag set from the optional credential. -/
structure GEOAnalyzer where
  gemini_available : Bool

/-- Oracles standing for the outbound LLM calls.  `Except.error` models a
raised exception (transport error, quota, timeout, or a `json.loads` failure
on the returned content); `Except.ok` models a normal return. -/
structure Oracles where
  gpt : List Char → Except (List Char) (List Char)
  gemini : List Char → Except (List Char) (List Char)
  scoring : List Char → List Char → Bool → Except (List Char) Json
  scenario : List Char → List Char → Except (List Char) Json

def mentionedKey : List Char := "mentioned".data

def solutionFitKey : List Char := "solution_fit".data

def queriesKey : List Char := "queries".data

def strategyKey : List Char := "strategy".data

def keyErrorMsg : List Char := "KeyError: ".data

def typeErrorMsg : List Char := "TypeError: value is not a JSON object".data

/-- The tail of `analyze_task` after a raw answer has been obtained (lines
99-116 of geo_engine.py): run the deterministic detector, issue the
fit-scoring call, parse its JSON, unconditionally overwrite the `mentioned`
key with the detector verdict, and build the success dictionary.  A scoring
result that is not a JSON object makes the item assignment raise, which the
`except` clause converts to an error dictionary. -/
def scoreAndBuild (o : Oracles) (model_type : ModelType)
    (brand_name raw_text : List Char) (q_idx : Nat) : TaskResult :=
  let actual_visibility := check_visibility_logic raw_text brand_name
  match o.scoring brand_name raw_text actual_visibility with
  | Except.error e => TaskResult.error ⟨q_idx, model_type, e⟩
  | Except.ok (Json.obj kvs) =>
      TaskResult.success
        ⟨q_idx, model_type, raw_text, dictSet kvs mentionedKey (Json.bool actual_visibility)⟩
  | Except.ok _ => TaskResult.error ⟨q_idx, model_type, typeErrorMsg⟩

/-- `GEOAnalyzer.analyze_task`: dispatch to the engine named by `model_type`,
returning `none` (Python `None`) when the optional Gemini engine is
unavailable, and otherwise one of the two result dictionaries.  Every failure
of an oracle is caught by the surrounding `try`/`except` and becomes an error
dictionary. -/
def analyze_task (st : GEOAnalyzer) (o : Oracles) (model_type : ModelType)
    (brand_name question : List Char) (q_idx : Nat) : Option TaskResult :=
  match model_type with
  | ModelType.GPT =>
    match o.gpt question with
    | Except.error e => some (TaskResult.error ⟨q_idx, ModelType.GPT, e⟩)
    | Except.ok raw_text => some (scoreAndBuild o ModelType.GPT brand_name raw_text q_idx)
  | ModelType.Gemini =>
    if st.gemini_available then
      match o.gemini question with
      | Except.error e => some (TaskResult.error ⟨q_idx, ModelType.Gemini, e⟩)
      | Except.ok raw_text => some (scoreAndBuild o ModelType.Gemini brand_name raw_text q_idx)
    else none

theorem dictLookup_replace_of_any (rest : List (List Char × Json)) (k : List Char) (v : Json)
    (hany : rest.any (fun p => decide (p.1 = k)) = true) :
    dictLookup (rest.map (fun p => if p.1 = k then (k, v) else p)) k = some v := by
  induction rest with
  | nil => simp at hany
  | cons p t ih =>
    obtain ⟨a, b⟩ := p
    rw [List.map_cons]
    by_cases ha : a = k
    · rw [show (if (a, b).1 = k then (k, v) else (a, b)) = (k, v) from if_pos ha]
      simp [dictLookup]
    · have ht : t.any (fun p => decide (p.1 = k)) = true := by
        rcases (List.any_cons ..).symm ▸ hany with h
        rcases Bool.or_eq_true_iff.mp h with h1 | h1
        · exact absurd (of_decide_eq_true h1) ha
        · exact h1
      rw [show (if (a, b).1 = k then (k, v) else (a, b)) = (a, b) from if_neg ha]
      simp only [dictLookup, if_neg ha]
      exact ih ht

theorem dictLookup_none_of_not_any (d : List (List Char × Json)) (k : List Char)
    (h : ¬ d.any (fun p => decide (p.1 = k)) = true) : dictLookup d k = none := by
  induction d with
  | nil => rfl
  | cons p t ih =>
    obtain ⟨a, b⟩ := p
    have ha : ¬ a = k := fun hak => h (by simp [List.any_cons, hak])
    have ht : ¬ t.any (fun p => decide (p.1 = k)) = true := fun hr =>
      h (by simp [List.any_cons, hr])
    simp only [dictLookup, if_neg ha]
    exact ih ht

theorem dictLookup_append_single_self (d : List (List Char × Json)) (k : List Char) (v : Json)
    (h : dictLookup d k = none) : dictLookup (d ++ [(k, v)]) k = some v := by
  induction d with
  | nil => simp [dictLookup]
  | cons p t ih =>
    obtain ⟨a, b⟩ := p
    by_cases ha : a = k
    · rw [dictLookup, if_pos ha] at h
      exact absurd h (by simp)
    · rw [dictLookup, if_neg ha] at h
      simp only [List.cons_append, dictLookup, if_neg ha]
      exact ih h

theorem dictLookup_append_single_ne (d : List (List Char × Json)) (k key : List Char)
    (v : Json) (hne : key ≠ k) :
    dictLookup (d ++ [(k, v)]) key = dictLookup d key := by
  induction d with
  | nil =>
    have hk : ¬ k = key := fun h => hne h.symm
    simp [dictLookup, hk]
  | cons p t ih =>
    obtain ⟨a, b⟩ := p
    by_cases hak : a = key
    · simp only [List.cons_append, dictLookup, if_pos hak]
    · simp only [List.cons_append, dictLookup, if_neg hak]
      exact ih

theorem dictLookup_replace_ne (d : List (List Char × Json)) (k key : List Char) (v : Json)
    (hne : key ≠ k) :
    dictLookup (d.map (fun p => if p.1 = k then (k, v) else p)) key = dictLookup d key := by
  induction d with
  | nil => simp
  | cons p t ih =>
    obtain ⟨a, b⟩ := p
    rw [List.map_cons]
    by_cases ha : a = k
    · rw [show (if (a, b).1 = k then (k, v) else (a, b)) = (k, v) from if_pos ha]
      have hk : ¬ k = key := fun h => hne h.symm
      have hak : ¬ a = key := fun h => hk (ha ▸ h)
      simp only [dictLookup, if_neg hk, if_neg hak]
      exact ih
    · rw [show (if (a, b).1 = k then (k, v) else (a, b)) = (a, b) from if_neg ha]
      by_cases hak : a = key
      · simp only [dictLookup, if_pos hak]
      · simp only [dictLookup, if_neg hak]
        exact ih

theorem dictLookup_dictSet_self (d : List (List Char × Json)) (k : List Char) (v : Json) :
    dictLookup (dictSet d k v) k = some v := by
  unfold dictSet
  split
  · rename_i hany
    exact dictLookup_replace_of_any d k v hany
  · rename_i hany
    exact dictLookup_append_single_self d k v (dictLookup_none_of_not_any d k hany)

theorem dictLookup_dictSet_ne (d : List (List Char × Json)) (k key : List Char) (v : Json)
    (hne : key ≠ k) : dictLookup (dictSet d k v) key = dictLookup d key := by
  unfold dictSet
  split
  · exact dictLookup_replace_ne d k key v hne
  · exact dictLookup_append_single_ne d k key v hne

/-- The (questionIndex, engineId) key under which the batch loop files a
result: `res["q_idx"], res["model_type"]`, present in both dictionary
shapes. -/
def keyOf : TaskResult → Nat × ModelType
  | TaskResult.success s => (s.q_idx, s.model_type)
  | TaskResult.error e => (e.q_idx, e.model_type)

/-- Which engines can produce a result: the GPT engine is mandatory, the
Gemini engine only when its credential was present at construction. -/
def engineAvailable (st : GEOAnalyzer) : ModelType → Bool
  | ModelType.GPT => true
  | ModelType.Gemini => st.gemini_available

theorem scoreAndBuild_success_inv (o : Oracles) (m : ModelType) (b raw : List Char)
    (i : Nat) (s : TaskSuccess) (h : scoreAndBuild o m b raw i = TaskResult.success s) :
    s.q_idx = i ∧ s.model_type = m ∧ s.raw = raw ∧
      ∃ kvs, o.scoring b raw (check_visibility_logic raw b) = Except.ok (Json.obj kvs) ∧
        s.analysis = dictSet kvs mentionedKey (Json.bool (check_visibility_logic raw b)) := by
  simp only [scoreAndBuild] at h
  revert h
  cases hs : o.scoring b raw (check_visibility_logic raw b) with
  | error e => intro h; cases h
  | ok j =>
    cases j with
    | obj kvs =>
      intro h
      cases h
      exact ⟨rfl, rfl, rfl, kvs, rfl, rfl⟩
    | null => intro h; cases h
    | bool x => intro h; cases h
    | num x => intro h; cases h
    | str x => intro h; cases h
    | arr x => intro h; cases h

theorem keyOf_scoreAndBuild (o : Oracles) (m : ModelType) (b raw : List Char) (i : Nat) :
    keyOf (scoreAndBuild o m b raw i) = (i, m) := by
  simp only [scoreAndBuild]
  cases o.scoring b raw (check_visibility_logic raw b) with
  | error e => rfl
  | ok j => cases j <;> rfl

theorem analyze_task_some_inv (st : GEOAnalyzer) (o : Oracles) (m : ModelType)
    (b q : List Char) (i : Nat) (r : TaskResult)
    (h : analyze_task st o m b q i = some r) :
    keyOf r = (i, m) ∧ engineAvailable st m = true := by
  cases m with
  | GPT =>
    refine ⟨?_, rfl⟩
    simp only [analyze_task] at h
    revert h
    cases o.gpt q with
    | error e => intro h; cases h; rfl
    | ok raw =>
      intro h
      cases h
      exact keyOf_scoreAndBuild o ModelType.GPT b raw i
  | Gemini =>
    cases hga : st.gemini_available with
    | false =>
      simp only [analyze_task, hga, if_false] at h
      cases h
    | true =>
      refine ⟨?_, hga⟩
      simp only [analyze_task, hga, if_true] at h
      revert h
      cases o.gemini q with
      | error e => intro h; cases h; rfl
      | ok raw =>
        intro h
        cases h
        exact keyOf_scoreAndBuild o ModelType.Gemini b raw i

theorem analyze_task_none_inv (st : GEOAnalyzer) (o : Oracles) (m : ModelType)
    (b q : List Char) (i : Nat) (h : analyze_task st o m b q i = none) :
    m = ModelType.Gemini ∧ st.gemini_available = false := by
  cases m with
  | GPT =>
    simp only [analyze_task] at h
    revert h
    cases o.gpt q with
    | error e => intro h; cases h
    | ok raw => intro h; cases h
  | Gemini =>
    cases hga : st.gemini_available with
    | false => exact ⟨rfl, rfl⟩
    | true =>
      simp only [analyze_task, hga, if_true] at h
      revert h
      cases o.gemini q with
      | error e => intro h; cases h
      | ok raw => intro h; cases h

theorem analyze_task_success_inv (st : GEOAnalyzer) (o : Oracles) (m : ModelType)
    (b q : List Char) (i : Nat) (s : TaskSuccess)
    (h : analyze_task st o m b q i = some (TaskResult.success s)) :
    s.q_idx = i ∧ s.model_type = m ∧
      ∃ kvs, o.scoring b s.raw (check_visibility_logic s.raw b) = Except.ok (Json.obj kvs) ∧
        s.analysis = dictSet kvs mentionedKey (Json.bool (check_visibility_logic s.raw b)) := by
  cases m with
  | GPT =>
    simp only [analyze_task] at h
    revert h
    cases o.gpt q with
    | error e => intro h; cases h
    | ok raw =>
      intro h
      have hsb : scoreAndBuild o ModelType.GPT b raw i = TaskResult.success s :=
        Option.some.inj h
      obtain ⟨hq, hm, hraw, kvs, hsc, hana⟩ :=
        scoreAndBuild_success_inv o ModelType.GPT b raw i s hsb
      subst hraw
      exact ⟨hq, hm, kvs, hsc, hana⟩
  | Gemini =>
    cases hga : st.gemini_available with
    | false =>
      simp only [analyze_task, hga, if_false] at h
      cases h
    | true =>
      simp only [analyze_task, hga, if_true] at h
      revert h
      cases o.gemini q with
      | error e => intro h; cases h
      | ok raw =>
        intro h
        have hsb : scoreAndBuild o ModelType.Gemini b raw i = TaskResult.success s :=
          Option.some.inj h
        obtain ⟨hq, hm, hraw, kvs, hsc, hana⟩ :=
          scoreAndBuild_success_inv o ModelType.Gemini b raw i s hsb
        subst hraw
        exact ⟨hq, hm, kvs, hsc, hana⟩

/-- C1: for every result of `analyze_task` with a populated analysis block,
the final `mentioned` flag equals the deterministic detector verdict
`check_visibility_logic(rawText, brandName)`, regardless of the value the
fit-scoring call proposed: the code unconditionally overwrites the key. -/
theorem analyze_task_mention_override (st : GEOAnalyzer) (o : Oracles) (m : ModelType)
    (b q : List Char) (i : Nat) (s : TaskSuccess)
    (h : analyze_task st o m b q i = some (TaskResult.success s)) :
    dictLookup s.analysis mentionedKey =
      some (Json.bool (check_visibility_logic s.raw b)) := by
  obtain ⟨-, -, kvs, -, h5⟩ := analyze_task_success_inv st o m b q i s h
  rw [h5]
  exact dictLookup_dictSet_self kvs mentionedKey _

/-- Oracle behaviour for the concrete Toss scenario: the engine answers with
a text containing TOSS, and the fit-scoring call proposes `mentioned: false`
against the detector verdict. -/
def tossOracles : Oracles where
  gpt := fun _ => Except.ok "TOSS 앱을 이용하세요".data
  gemini := fun _ => Except.error "unavailable".data
  scoring := fun _ _ _ =>
    Except.ok (Json.obj [(mentionedKey, Json.bool false), (solutionFitKey, Json.num 5)])
  scenario := fun _ _ => Except.error "unused".data

/-- The result dictionary `analyze_task` produces in the Toss scenario: the
proposed `mentioned: false` has been overwritten with the detector verdict. -/
def tossSuccess : TaskSuccess :=
  ⟨0, ModelType.GPT, "TOSS 앱을 이용하세요".data,
    [(mentionedKey, Json.bool true), (solutionFitKey, Json.num 5)]⟩

theorem analyze_task_mention_override_witness :
    (analyze_task ⟨false⟩ tossOracles ModelType.GPT "Toss".data "q".data 0 =
        some (TaskResult.success tossSuccess)) ∧
      dictLookup tossSuccess.analysis mentionedKey =
        some (Json.bool (check_visibility_logic tossSuccess.raw "Toss".data)) :=
  ⟨rfl, analyze_task_mention_override ⟨false⟩ tossOracles ModelType.GPT
    "Toss".data "q".data 0 tossSuccess rfl⟩

/-- C3: `analyze_task` is total for every input and every oracle behaviour:
it never lets a failure escape, and its value is exactly one of (a) a success
dictionary carrying the raw text and the analysis block and no error field,
(b) an error dictionary carrying a message and no raw text or analysis, or
(c) `none` — and the `none` case arises only for the optional Gemini engine
with its credential absent.  The two dictionary shapes are the disjoint
constructors of `TaskResult`, so exactly one of (mention ∧ rawText) or error
is populated in any produced result. -/
theorem analyze_task_total_shape (st : GEOAnalyzer) (o : Oracles) (m : ModelType)
    (b q : List Char) (i : Nat) :
    (m = ModelType.Gemini ∧ st.gemini_available = false ∧ analyze_task st o m b q i = none)
    ∨ (∃ s, analyze_task st o m b q i = some (TaskResult.success s))
    ∨ (∃ e, analyze_task st o m b q i = some (TaskResult.error e)) := by
  cases m with
  | GPT =>
    right
    cases hg : o.gpt q with
    | error e => exact Or.inr ⟨⟨i, ModelType.GPT, e⟩, by simp [analyze_task, hg]⟩
    | ok raw =>
      cases hsb : scoreAndBuild o ModelType.GPT b raw i with
      | success s => exact Or.inl ⟨s, by simp [analyze_task, hg, hsb]⟩
      | error e => exact Or.inr ⟨e, by simp [analyze_task, hg, hsb]⟩
  | Gemini =>
    cases hga : st.gemini_available with
    | false => exact Or.inl ⟨rfl, rfl, by simp [analyze_task, hga]⟩
    | true =>
      right
      cases hg : o.gemini q with
      | error e => exact Or.inr ⟨⟨i, ModelType.Gemini, e⟩, by simp [analyze_task, hga, hg]⟩
      | ok raw =>
        cases hsb : scoreAndBuild o ModelType.Gemini b raw i with
        | success s => exact Or.inl ⟨s, by simp [analyze_task, hga, hg, hsb]⟩
        | error e => exact Or.inr ⟨e, by simp [analyze_task, hga, hg, hsb]⟩

/-- C10: the scoring step of `analyze_task` overwrites only the `mentioned`
key of the JSON object returned by the fit-scoring call; every other key
(`solution_fit`, `fit_reason`, `summary`, and any extra key) is passed into
the analysis block unchanged and unvalidated — in particular `solution_fit`
is never checked to be an integer in the range 1 to 10. -/
theorem analyze_task_frame (st : GEOAnalyzer) (o : Oracles) (m : ModelType)
    (b q : List Char) (i : Nat) (s : TaskSuccess)
    (h : analyze_task st o m b q i = some (TaskResult.success s)) :
    ∃ kvs, o.scoring b s.raw (check_visibility_logic s.raw b) = Except.ok (Json.obj kvs) ∧
      s.analysis = dictSet kvs mentionedKey (Json.bool (check_visibility_logic s.raw b)) ∧
      ∀ key, key ≠ mentionedKey → dictLookup s.analysis key = dictLookup kvs key := by
  obtain ⟨-, -, kvs, h4, h5⟩ := analyze_task_success_inv st o m b q i s h
  refine ⟨kvs, h4, h5, fun key hk => ?_⟩
  rw [h5]
  exact dictLookup_dictSet_ne kvs mentionedKey key _ hk

/-- Oracle behaviour exercising the frame property: the fit-scoring call
returns a `solution_fit` of 99, far outside the documented 1-10 range, plus
an undocumented extra key; both flow through unvalidated. -/
def fitOracles : Oracles where
  gpt := fun _ => Except.ok "hello".data
  gemini := fun _ => Except.error "unavailable".data
  scoring := fun _ _ _ =>
    Except.ok (Json.obj [(solutionFitKey, Json.num 99), ("extra".data, Json.str "kept".data)])
  scenario := fun _ _ => Except.error "unused".data

/-- The result dictionary in the frame-property scenario: `mentioned` was
appended, `solution_fit = 99` and the extra key survive unchanged. -/
def fitSuccess : TaskSuccess :=
  ⟨0, ModelType.GPT, "hello".data,
    [(solutionFitKey, Json.num 99), ("extra".data, Json.str "kept".data),
      (mentionedKey, Json.bool false)]⟩

theorem analyze_task_frame_witness :
    (analyze_task ⟨false⟩ fitOracles ModelType.GPT "Brand".data "q".data 0 =
        some (TaskResult.success fitSuccess)) ∧
      ∃ kvs, fitOracles.scoring "Brand".data fitSuccess.raw
          (check_visibility_logic fitSuccess.raw "Brand".data) = Except.ok (Json.obj kvs) ∧
        fitSuccess.analysis =
          dictSet kvs mentionedKey
            (Json.bool (check_visibility_logic fitSuccess.raw "Brand".data)) ∧
        ∀ key, key ≠ mentionedKey →
          dictLookup fitSuccess.analysis key = dictLookup kvs key :=
  ⟨rfl, analyze_task_frame ⟨false⟩ fitOracles ModelType.GPT "Brand".data "q".data 0
    fitSuccess rfl⟩

/-- Python subscript `data[key]` on a parsed JSON value: yields the value at
the key of an object, raises `KeyError` when the key is absent, and raises
`TypeError` when the value is not an object. -/
def pyGetItemJson (j : Json) (key : List Char) : Except (List Char) Json :=
  match j with
  | Json.obj kvs =>
    match dictLookup kvs key with
    | some v => Except.ok v
    | none => Except.error (keyErrorMsg ++ key)
  | _ => Except.error typeErrorMsg

/-- `GEOAnalyzer.generate_scenarios` (lines 69-84 of geo_engine.py): one LLM
call, `json.loads` on its content (a parse failure is the oracle's
`Except.error`), then `return data["queries"], data["strategy"]`.  There is no
`try`/`except`: every failure propagates to the caller. -/
def generate_scenarios (o : Oracles) (brand_name service_keyword : List Char) :
    Except (List Char) (Json × Json) :=
  match o.scenario brand_name service_keyword with
  | Except.error e => Except.error e
  | Except.ok data =>
    match pyGetItemJson data queriesKey with
    | Except.error e => Except.error e
    | Except.ok q =>
      match pyGetItemJson data strategyKey with
      | Except.error e => Except.error e
      | Except.ok s => Except.ok (q, s)

/-- Scenario oracle returning a JSON object whose `queries` value is the
number 5 — not a sequence. -/
def badScenarioOracles : Oracles where
  gpt := fun _ => Except.error "unused".data
  gemini := fun _ => Except.error "unused".data
  scoring := fun _ _ _ => Except.error "unused".data
  scenario := fun _ _ =>
    Except.ok (Json.obj [(strategyKey, Json.str "plan".data), (queriesKey, Json.num 5)])

/-- C6 counterexample: when the parsed response carries both keys but
`queries` is the number 5 — not a sequence — `generate_scenarios` succeeds and
returns the number, instead of failing as the claim requires: the code never
checks that `queries` is a sequence. -/
theorem generate_scenarios_no_sequence_check :
    generate_scenarios badScenarioOracles "Toss".data "transfer".data =
      Except.ok (Json.num 5, Json.str "plan".data) := rfl

/-- C6 (amended): `generate_scenarios` propagates a failure whenever the LLM
call or the JSON parse fails, or when the parsed object lacks the key
`queries` or the key `strategy` (no silent defaults); when both keys are
present it returns their parsed values as (queries, strategy) — without
validating that `queries` is a sequence. -/
theorem generate_scenarios_spec (o : Oracles) (b k : List Char)
    (kvs : List (List Char × Json)) (hdata : o.scenario b k = Except.ok (Json.obj kvs)) :
    (∀ q s, dictLookup kvs queriesKey = some q → dictLookup kvs strategyKey = some s →
      generate_scenarios o b k = Except.ok (q, s)) ∧
    ((dictLookup kvs queriesKey = none ∨ dictLookup kvs strategyKey = none) →
      ∃ e, generate_scenarios o b k = Except.error e) := by
  constructor
  · intro q s hq hs
    simp [generate_scenarios, hdata, pyGetItemJson, hq, hs]
  · rintro (hq | hs)
    · exact ⟨keyErrorMsg ++ queriesKey, by simp [generate_scenarios, hdata, pyGetItemJson, hq]⟩
    · cases hq2 : dictLookup kvs queriesKey with
      | none =>
        exact ⟨keyErrorMsg ++ queriesKey,
          by simp [generate_scenarios, hdata, pyGetItemJson, hq2]⟩
      | some q =>
        exact ⟨keyErrorMsg ++ strategyKey,
          by simp [generate_scenarios, hdata, pyGetItemJson, hq2, hs]⟩

/-- Scenario oracle returning a well-formed response object. -/
def goodScenarioOracles : Oracles where
  gpt := fun _ => Except.error "unused".data
  gemini := fun _ => Except.error "unused".data
  scoring := fun _ _ _ => Except.error "unused".data
  scenario := fun _ _ =>
    Except.ok (Json.obj [(strategyKey, Json.str "plan".data),
      (queriesKey, Json.arr [Json.str "q1".data, Json.str "q2".data, Json.str "q3".data])])

theorem generate_scenarios_spec_witness :
    (goodScenarioOracles.scenario "Toss".data "transfer".data =
        Except.ok (Json.obj [(strategyKey, Json.str "plan".data),
          (queriesKey, Json.arr [Json.str "q1".data, Json.str "q2".data,
            Json.str "q3".data])])) ∧
      ((∀ q s,
          dictLookup [(strategyKey, Json.str "plan".data),
            (queriesKey, Json.arr [Json.str "q1".data, Json.str "q2".data,
              Json.str "q3".data])] queriesKey = some q →
          dictLookup [(strategyKey, Json.str "plan".data),
            (queriesKey, Json.arr [Json.str "q1".data, Json.str "q2".data,
              Json.str "q3".data])] strategyKey = some s →
          generate_scenarios goodScenarioOracles "Toss".data "transfer".data =
            Except.ok (q, s)) ∧
        ((dictLookup [(strategyKey, Json.str "plan".data),
            (queriesKey, Json.arr [Json.str "q1".data, Json.str "q2".data,
              Json.str "q3".data])] queriesKey = none ∨
          dictLookup [(strategyKey, Json.str "plan".data),
            (queriesKey, Json.arr [Json.str "q1".data, Json.str "q2".data,
              Json.str "q3".data])] strategyKey = none) →
          ∃ e, generate_scenarios goodScenarioOracles "Toss".data "transfer".data =
            Except.error e)) :=
  ⟨rfl, generate_scenarios_spec goodScenarioOracles "Toss".data "transfer".data
    [(strategyKey, Json.str "plan".data),
      (queriesKey, Json.arr [Json.str "q1".data, Json.str "q2".data, Json.str "q3".data])]
    rfl⟩

def analysisKey : List Char := "analysis".data

/-- Python subscript `d[key]` on the analysis dictionary inside the rendering
block of the collection loop: raises `KeyError` when the key is absent. -/
def pyGetItemDict (d : List (List Char × Json)) (key : List Char) :
    Except (List Char) Json :=
  match dictLookup d key with
  | some v => Except.ok v
  | none => Except.error (keyErrorMsg ++ key)

/-- One iteration of the `as_completed` collection loop of app.py (lines
127-140): a `None` result is skipped (`if res:`); a dictionary result is
appended to `all_res`, after which the rendering block reads
`res["analysis"]` — raising `KeyError` on an error dictionary — and then the
keys `mentioned` and `solution_fit` of the analysis block.  The loop has no
`try` around it, so a raised exception aborts the whole collection, modelled
by `Except.error`. -/
def collectStep (acc : List TaskResult) :
    Option TaskResult → Except (List Char) (List TaskResult)
  | none => Except.ok acc
  | some r =>
    match r with
    | TaskResult.error _ => Except.error (keyErrorMsg ++ analysisKey)
    | TaskResult.success s =>
      match pyGetItemDict s.analysis mentionedKey with
      | Except.error e => Except.error e
      | Except.ok _ =>
        match pyGetItemDict s.analysis solutionFitKey with
        | Except.error e => Except.error e
        | Except.ok _ => Except.ok (acc ++ [r])

/-- The collection loop drained over a given completion order: each completed
future's result is handed to `collectStep`, accumulating `all_res`. -/
def collectResults (st : GEOAnalyzer) (o : Oracles) (brand : List Char)
    (queries : List (List Char)) :
    List (Nat × ModelType) → List TaskResult → Except (List Char) (List TaskResult)
  | [], acc => Except.ok acc
  | t :: rest, acc =>
    match collectStep acc (analyze_task st o t.2 brand (queries.getD t.1 []) t.1) with
    | Except.error e => Except.error e
    | Except.ok acc2 => collectResults st o brand queries rest acc2

/-- The task matrix submitted to the thread pool (app.py line 124-125):
one future per `(i, m)` for `i in range(len(queries))` and
`m in ["GPT", "Gemini"]`, in that submission order. -/
def taskMatrix : Nat → List (Nat × ModelType)
  | 0 => []
  | n + 1 => taskMatrix n ++ [(n, ModelType.GPT), (n, ModelType.Gemini)]

/-- The whole batch of app.py lines 122-140: submit the task matrix and drain
the futures in an arbitrary completion order (a permutation of the matrix),
collecting into the initially empty `all_res`. -/
def runBatch (st : GEOAnalyzer) (o : Oracles) (brand : List Char)
    (queries : List (List Char)) (completionOrder : List (Nat × ModelType)) :
    Except (List Char) (List TaskResult) :=
  collectResults st o brand queries completionOrder []

theorem collectResults_ok_keys (st : GEOAnalyzer) (o : Oracles) (brand : List Char)
    (queries : List (List Char)) (order : List (Nat × ModelType)) :
    ∀ (acc res : List TaskResult),
      collectResults st o brand queries order acc = Except.ok res →
      res.map keyOf = acc.map keyOf ++ order.filter (fun p => engineAvailable st p.2) := by
  induction order with
  | nil =>
    intro acc res h
    simp only [collectResults] at h
    cases h
    simp
  | cons t rest ih =>
    intro acc res h
    simp only [collectResults] at h
    revert h
    cases hat : analyze_task st o t.2 brand (queries.getD t.1 []) t.1 with
    | none =>
      intro h
      obtain ⟨hm, hflag⟩ := analyze_task_none_inv st o t.2 brand (queries.getD t.1 []) t.1 hat
      have hav : engineAvailable st t.2 = false := by rw [hm]; exact hflag
      rw [List.filter_cons_of_neg (by simp [hav])]
      exact ih acc res h
    | some r =>
      obtain ⟨hkey, hav⟩ :=
        analyze_task_some_inv st o t.2 brand (queries.getD t.1 []) t.1 r hat
      cases r with
      | error e =>
        intro h
        simp only [collectStep] at h
        cases h
      | success s =>
        rw [List.filter_cons_of_pos (by simp [hav])]
        simp only [collectStep]
        cases hm1 : pyGetItemDict s.analysis mentionedKey with
        | error e1 => intro h; cases h
        | ok v1 =>
          cases hm2 : pyGetItemDict s.analysis solutionFitKey with
          | error e2 => intro h; cases h
          | ok v2 =>
            intro h
            have hrec := ih (acc ++ [TaskResult.success s]) res h
            rw [hrec, List.map_append, List.append_assoc]
            congr 1
            simp only [List.map_cons, List.map_nil]
            rw [show keyOf (TaskResult.success s) = t from hkey.trans (Prod.mk.eta)]
            rfl

theorem taskMatrix_mem_lt (n : Nat) : ∀ p ∈ taskMatrix n, p.1 < n := by
  induction n with
  | zero => intro p hp; cases hp
  | succ n ih =>
    intro p hp
    simp only [taskMatrix] at hp
    rcases List.mem_append.mp hp with h | h
    · exact Nat.lt_succ_of_lt (ih p h)
    · simp only [List.mem_cons, List.mem_singleton] at h
      rcases h with rfl | rfl | h
      · exact Nat.lt_succ_self n
      · exact Nat.lt_succ_self n
      · cases h

theorem taskMatrix_nodup (n : Nat) : (taskMatrix n).Nodup := by
  induction n with
  | zero => exact List.nodup_nil
  | succ n ih =>
    simp only [taskMatrix]
    rw [List.nodup_append]
    refine ⟨ih, by simp, ?_⟩
    intro p hp hq
    have hlt := taskMatrix_mem_lt n p hp
    simp only [List.mem_cons, List.mem_singleton] at hq
    rcases hq with rfl | rfl | h
    · exact absurd hlt (by simp)
    · exact absurd hlt (by simp)
    · cases h

theorem taskMatrix_filter_length (st : GEOAnalyzer) (n : Nat) :
    ((taskMatrix n).filter (fun p => engineAvailable st p.2)).length =
      n * (if st.gemini_available then 2 else 1) := by
  induction n with
  | zero => simp [taskMatrix]
  | succ n ih =>
    simp only [taskMatrix]
    rw [List.filter_append, List.length_append, ih]
    have h2 : List.filter (fun p => engineAvailable st p.2)
          [(n, ModelType.GPT), (n, ModelType.Gemini)] =
        if st.gemini_available then [(n, ModelType.GPT), (n, ModelType.Gemini)]
        else [(n, ModelType.GPT)] := by
      cases hga : st.gemini_available with
      | true => simp [List.filter_cons, engineAvailable, hga]
      | false => simp [List.filter_cons, engineAvailable, hga]
    rw [h2]
    cases hga : st.gemini_available with
    | true =>
      show n * 2 + 2 = (n + 1) * 2
      omega
    | false =>
      show n * 1 + 1 = (n + 1) * 1
      omega

/-- C5 (amended): when the collection loop completes without an exception
(`runBatch` returns `Except.ok`), the batch over a ScenarioSet with N queries
yields exactly N on E collected outcomes, E being the number of available
engines — at most one outcome per (questionIndex, engine) pair — and with the
optional Gemini credential absent it yields exactly N outcomes, all
attributed to the mandatory GPT engine, the optional engine contributing
zero counted entries.  (Unamended, the claim fails when a task yields an
error outcome: the loop then aborts and delivers nothing; see the
counterexample.) -/
theorem runBatch_completeness (st : GEOAnalyzer) (o : Oracles) (brand : List Char)
    (queries : List (List Char)) (order : List (Nat × ModelType)) (res : List TaskResult)
    (hperm : order.Perm (taskMatrix queries.length))
    (hok : runBatch st o brand queries order = Except.ok res) :
    res.length = queries.length * (if st.gemini_available then 2 else 1) ∧
      (res.map keyOf).Nodup ∧
      (st.gemini_available = false → ∀ r ∈ res, (keyOf r).2 = ModelType.GPT) := by
  have hkeys : res.map keyOf = order.filter (fun p => engineAvailable st p.2) := by
    simpa using collectResults_ok_keys st o brand queries order [] res hok
  have hpermf : (order.filter (fun p => engineAvailable st p.2)).Perm
      ((taskMatrix queries.length).filter (fun p => engineAvailable st p.2)) :=
    hperm.filter _
  refine ⟨?_, ?_, ?_⟩
  · have h1 : (res.map keyOf).length = res.length := by simp
    rw [← h1, hkeys, hpermf.length_eq, taskMatrix_filter_length]
  · rw [hkeys]
    exact (hpermf.nodup_iff).mpr ((taskMatrix_nodup queries.length).filter _)
  · intro hga r hr
    have hmem : keyOf r ∈ res.map keyOf := List.mem_map_of_mem keyOf hr
    rw [hkeys] at hmem
    have hav := (List.mem_filter.mp hmem).2
    cases hm : (keyOf r).2 with
    | GPT => rfl
    | Gemini =>
      rw [hm] at hav
      simp [engineAvailable, hga] at hav

/-- Oracle behaviour for a clean batch run: the GPT call answers, the scoring
call returns an object carrying `solution_fit`, and Gemini is never
reached. -/
def okOracles : Oracles where
  gpt := fun _ => Except.ok "answer".data
  gemini := fun _ => Except.error "unavailable".data
  scoring := fun _ _ _ => Except.ok (Json.obj [(solutionFitKey, Json.num 7)])
  scenario := fun _ _ => Except.error "unused".data

/-- The single query of the witness batch. -/
def oneQuery : List (List Char) := ["q0".data]

/-- The collected outcome of the witness batch: one GPT success, the
unavailable Gemini engine contributing nothing. -/
def okBatchResult : List TaskResult :=
  [TaskResult.success ⟨0, ModelType.GPT, "answer".data,
    [(solutionFitKey, Json.num 7), (mentionedKey, Json.bool false)]⟩]

theorem runBatch_completeness_witness :
    ((taskMatrix 1).Perm (taskMatrix oneQuery.length) ∧
      runBatch ⟨false⟩ okOracles "Brand".data oneQuery (taskMatrix 1) =
        Except.ok okBatchResult) ∧
      (okBatchResult.length =
          oneQuery.length * (if (GEOAnalyzer.mk false).gemini_available then 2 else 1) ∧
        (okBatchResult.map keyOf).Nodup ∧
        ((GEOAnalyzer.mk false).gemini_available = false →
          ∀ r ∈ okBatchResult, (keyOf r).2 = ModelType.GPT)) :=
  ⟨⟨List.Perm.refl _, rfl⟩,
    runBatch_completeness ⟨false⟩ okOracles "Brand".data oneQuery (taskMatrix 1)
      okBatchResult (List.Perm.refl _) rfl⟩

/-- Oracle behaviour with the single GPT task failing. -/
def failingOracles : Oracles where
  gpt := fun _ => Except.error "boom".data
  gemini := fun _ => Except.error "unavailable".data
  scoring := fun _ _ _ => Except.ok (Json.obj [(solutionFitKey, Json.num 7)])
  scenario := fun _ _ => Except.error "unused".data

/-- C5 counterexample: with one query, one available engine, and a failing
GPT call, the task yields an error dictionary; the collection loop then
raises `KeyError` on `res["analysis"]` and aborts, so the batch yields no
collected outcome set at all — not the N on E = 1 outcomes the claim states
it always yields. -/
theorem runBatch_completeness_counterexample :
    runBatch ⟨false⟩ failingOracles "Brand".data oneQuery (taskMatrix 1) =
        Except.error (keyErrorMsg ++ analysisKey) ∧
      (runBatch ⟨false⟩ failingOracles "Brand".data oneQuery (taskMatrix 1)).toOption
        = none :=
  ⟨rfl, rfl⟩

/-- Oracle behaviour injecting a failure into exactly one task: the GPT call
fails on the first question and answers normally on the second. -/
def isolationOracles : Oracles where
  gpt := fun q =>
    if q = "q0".data then Except.error "transport error".data
    else Except.ok "fine answer".data
  gemini := fun _ => Except.error "unavailable".data
  scoring := fun _ _ _ => Except.ok (Json.obj [(solutionFitKey, Json.num 7)])
  scenario := fun _ _ => Except.error "unused".data

/-- C4: the engine side isolates the injected failure exactly as the claim
says — the failing task returns an error dictionary instead of raising, and
the sibling task's outcome is the same success dictionary it produces in a
clean run — but the collection loop of app.py reads `res["analysis"]` on the
error dictionary, raises `KeyError`, and aborts the batch's result
collection, contradicting the claim's second half. -/
theorem batch_error_aborts_collection :
    analyze_task ⟨false⟩ isolationOracles ModelType.GPT "Brand".data "q1".data 1 =
        some (TaskResult.success ⟨1, ModelType.GPT, "fine answer".data,
          [(solutionFitKey, Json.num 7), (mentionedKey, Json.bool false)]⟩) ∧
      analyze_task ⟨false⟩ isolationOracles ModelType.GPT "Brand".data "q0".data 0 =
        some (TaskResult.error ⟨0, ModelType.GPT, "transport error".data⟩) ∧
      runBatch ⟨false⟩ isolationOracles "Brand".data ["q0".data, "q1".data] (taskMatrix 2) =
        Except.error (keyErrorMsg ++ analysisKey) :=
  ⟨rfl, rfl, rfl⟩

end Geo
